import Mathlib

/-!
Verification development for the Konflux DevLake MCP server
(src/utils/security.py, src/utils/db.py).

The Python code is shallowly embedded: strings are lists of characters,
the regular-expression substitutions of the data-masking utility are
implemented as executable scanners that follow the semantics of the
Python re module (leftmost scan, non-overlapping matches, greedy
backtracking for the concrete patterns that appear in the source),
stateful classes become explicit state passing, and datetime / Decimal
values become explicit constructors of an embedded value type.
-/

namespace KonfluxDevLake

/-! ## Python string primitives -/

/-- Characters stripped by the Python str.strip default (ASCII whitespace). -/
def pyIsSpace (c : Char) : Bool :=
  c = ' ' || c = '\t' || c = '\n' || c = '\r' || c = '\x0b' || c = '\x0c'

/-- Word characters for the regex word boundary anchor, ASCII semantics. -/
def isWordChar (c : Char) : Bool :=
  c.isAlpha || c.isDigit || c = '_'

/-- Word-ness of an optional character; absence (string edge) counts as non-word. -/
def isWordOpt : Option Char → Bool
  | none => false
  | some c => isWordChar c

/-- The regex word boundary between a previous character and the current one. -/
def wordBoundary (prev cur : Option Char) : Bool :=
  isWordOpt prev != isWordOpt cur

/-- Python str.lower for the ASCII range, applied character by character. -/
def pyLowerL (l : List Char) : List Char :=
  l.map Char.toLower

/-- Python str.strip with the default whitespace set. -/
def pyStripL (l : List Char) : List Char :=
  ((l.dropWhile pyIsSpace).reverse.dropWhile pyIsSpace).reverse

/-- Lower-case then strip, the normalization used by the SQL validators. -/
def lowerStrip (s : String) : List Char :=
  pyStripL (pyLowerL s.data)

/-! ## Generic re.sub engine

A matcher takes the character preceding the current position (for word
boundaries) and the remaining input, and returns the length of the match
starting at the current position, if any.  The engine scans left to right,
replacing each match and resuming after its end, exactly as re.sub does:
replacement text is never rescanned within one pass. -/

/-- One pass of re.sub, driven by a fuel counter equal to the remaining
length; every match consumes at least one character so the fuel suffices.
With fuel zero the remaining input is returned unchanged. -/
def pySubF (m : Option Char → List Char → Option Nat)
    (repl : List Char → List Char) : Nat → Option Char → List Char → List Char
  | 0, _, rest => rest
  | _ + 1, _, [] => []
  | fuel + 1, prev, c :: rest =>
    match m prev (c :: rest) with
    | some n =>
      if n = 0 then
        c :: pySubF m repl fuel (some c) rest
      else
        let matched := (c :: rest).take n
        repl matched ++ pySubF m repl fuel (matched.getLastD c) ((c :: rest).drop n)
    | none => c :: pySubF m repl fuel (some c) rest

/-- re.sub over a whole character list (scan starts at the string edge). -/
def pySub (m : Option Char → List Char → Option Nat)
    (repl : List Char → List Char) (l : List Char) : List Char :=
  pySubF m repl l.length none l

/-- re.search as a boolean: does the matcher fire at any scan position. -/
def pyHasMatch (m : Option Char → List Char → Option Nat) :
    Option Char → List Char → Bool
  | _, [] => false
  | prev, c :: rest => (m prev (c :: rest)).isSome || pyHasMatch m (some c) rest

/-- Membership test of a matcher over a whole character list. -/
def pySearch (m : Option Char → List Char → Option Nat) (l : List Char) : Bool :=
  pyHasMatch m none l

/-- Character at an index, if in range. -/
def charAt (l : List Char) (i : Nat) : Option Char :=
  l.get? i

/-- The n characters starting at index i are all decimal digits. -/
def digitsAt (l : List Char) (i n : Nat) : Bool :=
  (List.range n).all fun k =>
    match charAt l (i + k) with
    | some c => c.isDigit
    | none => false

/-- The character at index i is exactly c. -/
def chAt (l : List Char) (i : Nat) (c : Char) : Bool :=
  charAt l i == some c

/-- An optional one-character separator at index i drawn from a class:
width 0 always fits, width 1 requires the class to accept the character. -/
def sepAt (cls : Char → Bool) (l : List Char) (i w : Nat) : Bool :=
  if w = 0 then true
  else
    match charAt l i with
    | some c => cls c
    | none => false

/-! ## The five masking patterns of DataMasking (src/utils/security.py)

Each matcher implements one of the sensitive_patterns regexes at a fixed
scan position, including the word-boundary anchors and the greedy
backtracking order of the optional separator groups. -/

/-- Characters of the email local part class A-Za-z0-9._%+- . -/
def isLocalChar (c : Char) : Bool :=
  c.isAlpha || c.isDigit || c = '.' || c = '_' || c = '%' || c = '+' || c = '-'

/-- Characters of the email domain class A-Za-z0-9.- . -/
def isDomChar (c : Char) : Bool :=
  c.isAlpha || c.isDigit || c = '.' || c = '-'

/-- Characters of the email top-level class: letters and the literal bar,
since the source writes the class as A-Z, bar, a-z. -/
def isTldChar (c : Char) : Bool :=
  c.isAlpha || c = '|'

/-- Matcher for the email pattern.  The local part is a forced maximal run
(the at-sign is outside its class), the domain length d and top-level
length t are searched in greedy backtracking order: longest first. -/
def emailMatchAt (prev : Option Char) (l : List Char) : Option Nat :=
  if wordBoundary prev (charAt l 0) then
    let localLen := (l.takeWhile isLocalChar).length
    if localLen ≥ 1 && chAt l localLen '@' then
      let after := l.drop (localLen + 1)
      let domMax := (after.takeWhile isDomChar).length
      if domMax ≥ 1 then
        (List.range (domMax + 1)).reverse.findSome? fun d =>
          if d ≥ 1 && chAt after d '.' then
            let tldRun := ((after.drop (d + 1)).takeWhile isTldChar).length
            (List.range (tldRun + 1)).reverse.findSome? fun t =>
              if t ≥ 2 &&
                  wordBoundary (charAt after (d + t)) (charAt after (d + 1 + t)) then
                some (localLen + d + t + 2)
              else none
          else none
      else none
    else none
  else none

/-- Separator class of the phone pattern: dash or dot. -/
def phoneSep (c : Char) : Bool :=
  c = '-' || c = '.'

/-- Separator class of the credit card pattern: dash or space. -/
def ccSep (c : Char) : Bool :=
  c = '-' || c = ' '

/-- Matcher for the phone pattern: three digits, optional separator, three
digits, optional separator, four digits, between word boundaries.  The two
optional groups are tried present-first, matching greedy backtracking. -/
def phoneMatchAt (prev : Option Char) (l : List Char) : Option Nat :=
  if wordBoundary prev (charAt l 0) then
    [(1, 1), (1, 0), (0, 1), (0, 0)].findSome? fun s =>
      if digitsAt l 0 3 && sepAt phoneSep l 3 s.1 &&
          digitsAt l (3 + s.1) 3 && sepAt phoneSep l (6 + s.1) s.2 &&
          digitsAt l (6 + s.1 + s.2) 4 &&
          !isWordOpt (charAt l (10 + s.1 + s.2)) then
        some (10 + s.1 + s.2)
      else none
  else none

/-- Matcher for the SSN pattern: ddd-dd-dddd between word boundaries. -/
def ssnMatchAt (prev : Option Char) (l : List Char) : Option Nat :=
  if wordBoundary prev (charAt l 0) && digitsAt l 0 3 && chAt l 3 '-' &&
      digitsAt l 4 2 && chAt l 6 '-' && digitsAt l 7 4 &&
      !isWordOpt (charAt l 11) then
    some 11
  else none

/-- Matcher for the credit card pattern: four groups of four digits with
three optional dash-or-space separators, between word boundaries; the
separator combinations are tried in greedy backtracking order. -/
def ccMatchAt (prev : Option Char) (l : List Char) : Option Nat :=
  if wordBoundary prev (charAt l 0) then
    [(1, 1, 1), (1, 1, 0), (1, 0, 1), (1, 0, 0),
     (0, 1, 1), (0, 1, 0), (0, 0, 1), (0, 0, 0)].findSome?
      fun (s : Nat × Nat × Nat) =>
        let a := s.1
        let b := s.2.1
        let c := s.2.2
        if digitsAt l 0 4 && sepAt ccSep l 4 a &&
            digitsAt l (4 + a) 4 && sepAt ccSep l (8 + a) b &&
            digitsAt l (8 + a + b) 4 && sepAt ccSep l (12 + a + b) c &&
            digitsAt l (12 + a + b + c) 4 &&
            !isWordOpt (charAt l (16 + a + b + c)) then
          some (16 + a + b + c)
        else none
  else none

/-- Matcher for the IPv4 pattern: four runs of one to three digits joined
by dots, between word boundaries; each run length is tried longest first. -/
def ipMatchAt (prev : Option Char) (l : List Char) : Option Nat :=
  if wordBoundary prev (charAt l 0) then
    [3, 2, 1].findSome? fun k1 =>
      if digitsAt l 0 k1 && chAt l k1 '.' then
        [3, 2, 1].findSome? fun k2 =>
          let p1 := k1 + 1
          if digitsAt l p1 k2 && chAt l (p1 + k2) '.' then
            [3, 2, 1].findSome? fun k3 =>
              let p2 := p1 + k2 + 1
              if digitsAt l p2 k3 && chAt l (p2 + k3) '.' then
                [3, 2, 1].findSome? fun k4 =>
                  let p3 := p2 + k3 + 1
                  if digitsAt l p3 k4 && !isWordOpt (charAt l (p3 + k4)) then
                    some (p3 + k4)
                  else none
              else none
          else none
      else none
  else none

/-! ## Replacements of mask_sensitive_data -/

/-- Email replacement: the first three characters of the whole match, then
a fixed infix, then the text after the at-sign of the match (the source
computes it as element one of splitting the match on the at-sign). -/
def emailRepl (matched : List Char) : List Char :=
  matched.take 3 ++ "***@".data ++
    (((matched.dropWhile (fun c => c != '@')).drop 1).takeWhile (fun c => c != '@'))

/-- Fixed phone redaction token. -/
def phoneRepl (_ : List Char) : List Char :=
  "***-***-****".data

/-- Fixed SSN redaction token. -/
def ssnRepl (_ : List Char) : List Char :=
  "***-**-****".data

/-- Fixed credit card redaction token. -/
def ccRepl (_ : List Char) : List Char :=
  "****-****-****-****".data

/-- Fixed IPv4 redaction token. -/
def ipRepl (_ : List Char) : List Char :=
  "***.***.***.***".data

/-- DataMasking.mask_sensitive_data: the five substitution passes in source
order (email, phone, SSN, credit card, IPv4); the empty string is returned
unchanged by the falsy-input early return. -/
def maskSensitiveDataL (l : List Char) : List Char :=
  if l = [] then l
  else
    pySub ipMatchAt ipRepl
      (pySub ccMatchAt ccRepl
        (pySub ssnMatchAt ssnRepl
          (pySub phoneMatchAt phoneRepl
            (pySub emailMatchAt emailRepl l))))

/-- String-level wrapper of mask_sensitive_data. -/
def mask_sensitive_data (s : String) : String :=
  ⟨maskSensitiveDataL s.data⟩

/-- A list that is entirely one email match: the email matcher fires at the
start of the string and consumes all of it. -/
def isFullEmailMatch (l : List Char) : Bool :=
  emailMatchAt none l == some l.length

/-! ## Embedded Python values

Database results are dictionaries, lists, strings, numbers, booleans,
None, datetime / date objects and Decimal objects.  Dictionaries keep
insertion order, as Python dictionaries do. -/

/-- A naive datetime value (year, month, day, hour, minute, second,
microsecond), as produced by the MySQL driver for DATETIME columns. -/
structure PyDateTime where
  year : Nat
  month : Nat
  day : Nat
  hour : Nat
  minute : Nat
  second : Nat
  micro : Nat
  deriving DecidableEq, Repr

/-- A date value. -/
structure PyDate where
  year : Nat
  month : Nat
  day : Nat
  deriving DecidableEq, Repr

/-- An arbitrary-precision decimal: sign, coefficient digits (most
significant first) and exponent, mirroring the triple held by the Python
Decimal type.  The value denoted is coefficient times ten to the exp. -/
structure PyDecimal where
  sign : Bool
  digits : List Nat
  exp : Int
  deriving DecidableEq, Repr

mutual

inductive PyVal where
  | vStr (s : String)
  | vInt (n : Int)
  | vBool (b : Bool)
  | vNone
  | vDateTime (d : PyDateTime)
  | vDate (d : PyDate)
  | vDec (d : PyDecimal)
  | vList (xs : PyList)
  | vDict (ps : PyDict)
  deriving DecidableEq, Repr

inductive PyList where
  | nil
  | cons (hd : PyVal) (tl : PyList)
  deriving DecidableEq, Repr

inductive PyDict where
  | nil
  | cons (key : String) (val : PyVal) (tl : PyDict)
  deriving DecidableEq, Repr

end

/-- Length of an embedded list. -/
def plLength : PyList → Nat
  | .nil => 0
  | .cons _ tl => plLength tl + 1

/-- Python list slicing with a nonnegative upper bound: the first n items. -/
def plTake : Nat → PyList → PyList
  | 0, _ => .nil
  | _, .nil => .nil
  | n + 1, .cons hd tl => .cons hd (plTake n tl)

/-- A natural number as decimal digits left-padded with zeros to width w. -/
def padNat (w n : Nat) : List Char :=
  let ds := Nat.toDigits 10 n
  List.replicate (w - ds.length) '0' ++ ds

/-- datetime.isoformat for a naive datetime: seconds are always printed,
microseconds only when nonzero, with the standard zero padding. -/
def isoDateTime (d : PyDateTime) : String :=
  ⟨padNat 4 d.year ++ '-' :: padNat 2 d.month ++ '-' :: padNat 2 d.day ++
    'T' :: padNat 2 d.hour ++ ':' :: padNat 2 d.minute ++ ':' :: padNat 2 d.second ++
    (if d.micro = 0 then [] else '.' :: padNat 6 d.micro)⟩

/-- date.isoformat. -/
def isoDate (d : PyDate) : String :=
  ⟨padNat 4 d.year ++ '-' :: padNat 2 d.month ++ '-' :: padNat 2 d.day⟩

/-- str applied to a Decimal: the to-scientific-string algorithm of the
decimal specification as implemented by the Python Decimal type.  Plain
notation is used when the exponent is nonpositive and the adjusted
exponent is at least minus six; otherwise scientific notation. -/
def decStr (d : PyDecimal) : String :=
  let ds := d.digits.map Nat.digitChar
  let n : Int := ds.length
  let leftdigits : Int := d.exp + n
  let dotplace : Int := if d.exp ≤ 0 ∧ leftdigits > -6 then leftdigits else 1
  let intpart : List Char :=
    if dotplace ≤ 0 then ['0']
    else if dotplace ≥ n then ds ++ List.replicate (dotplace - n).toNat '0'
    else ds.take dotplace.toNat
  let fracpart : List Char :=
    if dotplace ≤ 0 then '.' :: (List.replicate (-dotplace).toNat '0' ++ ds)
    else if dotplace ≥ n then []
    else '.' :: ds.drop dotplace.toNat
  let exppart : List Char :=
    if leftdigits = dotplace then []
    else
      let e := leftdigits - dotplace
      'E' :: (if 0 ≤ e then '+' :: Nat.toDigits 10 e.toNat else '-' :: Nat.toDigits 10 (-e).toNat)
  ⟨(if d.sign then ['-'] else []) ++ intpart ++ fracpart ++ exppart⟩

/-! ## serialize_datetime_objects (src/utils/db.py) -/

mutual

/-- serialize_datetime_objects: recursively convert datetime, date and
Decimal values to their canonical strings; everything else unchanged. -/
def serialize_datetime_objects : PyVal → PyVal
  | .vDict ps => .vDict (serializeDict ps)
  | .vList xs => .vList (serializeList xs)
  | .vDateTime d => .vStr (isoDateTime d)
  | .vDate d => .vStr (isoDate d)
  | .vDec d => .vStr (decStr d)
  | v => v

/-- serialize_datetime_objects over a list. -/
def serializeList : PyList → PyList
  | .nil => .nil
  | .cons hd tl => .cons (serialize_datetime_objects hd) (serializeList tl)

/-- serialize_datetime_objects over a dictionary (keys unchanged). -/
def serializeDict : PyDict → PyDict
  | .nil => .nil
  | .cons k v tl => .cons k (serialize_datetime_objects v) (serializeDict tl)

end

mutual

/-- No datetime, date or Decimal node remains anywhere in a value. -/
def noRawTemporal : PyVal → Bool
  | .vDateTime _ => false
  | .vDate _ => false
  | .vDec _ => false
  | .vList xs => noRawTemporalList xs
  | .vDict ps => noRawTemporalDict ps
  | _ => true

/-- No datetime, date or Decimal node remains in a list. -/
def noRawTemporalList : PyList → Bool
  | .nil => true
  | .cons hd tl => noRawTemporal hd && noRawTemporalList tl

/-- No datetime, date or Decimal node remains in a dictionary. -/
def noRawTemporalDict : PyDict → Bool
  | .nil => true
  | .cons _ v tl => noRawTemporal v && noRawTemporalDict tl

end

/-! ## DataMasking.mask_database_result (src/utils/security.py) -/

mutual

/-- mask_database_result: dictionaries and lists are walked recursively,
string values are masked with mask_sensitive_data, and every other value
(None included, via the early return) passes through unchanged. -/
def mask_database_result : PyVal → PyVal
  | .vStr s => .vStr (mask_sensitive_data s)
  | .vList xs => .vList (maskList xs)
  | .vDict ps => .vDict (maskDict ps)
  | v => v

/-- The per-item dispatch of the list branch: nested dictionaries and
lists recurse, strings are masked, other items are kept as they are. -/
def maskList : PyList → PyList
  | .nil => .nil
  | .cons hd tl => .cons (mask_database_result hd) (maskList tl)

/-- The per-key dispatch of the dictionary branch (keys unchanged). -/
def maskDict : PyDict → PyDict
  | .nil => .nil
  | .cons k v tl => .cons k (mask_database_result v) (maskDict tl)

end

/-! ## The masking contract stated from the specification

specMasksTo is written from the words of the specification: masking is
structure preserving (same dictionary keys in the same order, same list
lengths), every string leaf is rewritten with mask_sensitive_data, and
every non-string leaf passes through unchanged.  It is compared with the
implementation mask_database_result in the theorems below. -/

mutual

/-- The specification-side masking relation on values. -/
def specMasksTo : PyVal → PyVal → Bool
  | .vStr s, .vStr t => t == mask_sensitive_data s
  | .vInt a, .vInt b => a == b
  | .vBool a, .vBool b => a == b
  | .vNone, .vNone => true
  | .vDateTime a, .vDateTime b => a == b
  | .vDate a, .vDate b => a == b
  | .vDec a, .vDec b => a == b
  | .vList xs, .vList ys => specMasksToList xs ys
  | .vDict ps, .vDict qs => specMasksToDict ps qs
  | _, _ => false

/-- The specification-side masking relation on lists. -/
def specMasksToList : PyList → PyList → Bool
  | .nil, .nil => true
  | .cons a as, .cons b bs => specMasksTo a b && specMasksToList as bs
  | _, _ => false

/-- The specification-side masking relation on dictionaries. -/
def specMasksToDict : PyDict → PyDict → Bool
  | .nil, .nil => true
  | .cons k v tl, .cons k2 v2 tl2 => k == k2 && specMasksTo v v2 && specMasksToDict tl tl2
  | _, _ => false

end

mutual

/-- The specification-side serialization relation, written from the words
of the claim: every date/time leaf becomes exactly its ISO string, every
decimal leaf becomes exactly its canonical decimal text, all other leaves
pass through unchanged, and the structure of mappings and sequences is
preserved.  It is compared with serialize_datetime_objects below. -/
def specSerializesTo : PyVal → PyVal → Bool
  | .vDateTime d, .vStr t => t == isoDateTime d
  | .vDate d, .vStr t => t == isoDate d
  | .vDec d, .vStr t => t == decStr d
  | .vStr a, .vStr b => a == b
  | .vInt a, .vInt b => a == b
  | .vBool a, .vBool b => a == b
  | .vNone, .vNone => true
  | .vList xs, .vList ys => specSerializesToList xs ys
  | .vDict ps, .vDict qs => specSerializesToDict ps qs
  | _, _ => false

/-- The specification-side serialization relation on lists. -/
def specSerializesToList : PyList → PyList → Bool
  | .nil, .nil => true
  | .cons a as, .cons b bs => specSerializesTo a b && specSerializesToList as bs
  | _, _ => false

/-- The specification-side serialization relation on dictionaries. -/
def specSerializesToDict : PyDict → PyDict → Bool
  | .nil, .nil => true
  | .cons k v tl, .cons k2 v2 tl2 =>
    k == k2 && specSerializesTo v v2 && specSerializesToDict tl tl2
  | _, _ => false

end

/-- A string in which none of the five sensitive patterns fires anywhere. -/
def noSensitiveMatch (s : String) : Bool :=
  !(pySearch emailMatchAt s.data || pySearch phoneMatchAt s.data ||
    pySearch ssnMatchAt s.data || pySearch ccMatchAt s.data ||
    pySearch ipMatchAt s.data)

mutual

/-- Every string leaf of a value is free of sensitive-pattern matches. -/
def leavesMatchFree : PyVal → Bool
  | .vStr s => noSensitiveMatch s
  | .vList xs => leavesMatchFreeList xs
  | .vDict ps => leavesMatchFreeDict ps
  | _ => true

/-- Every string leaf of a list is free of sensitive-pattern matches. -/
def leavesMatchFreeList : PyList → Bool
  | .nil => true
  | .cons hd tl => leavesMatchFree hd && leavesMatchFreeList tl

/-- Every string leaf of a dictionary is free of sensitive-pattern matches. -/
def leavesMatchFreeDict : PyDict → Bool
  | .nil => true
  | .cons _ v tl => leavesMatchFree v && leavesMatchFreeDict tl

end

/-! ## KonfluxDevLakeSecurityManager.validate_sql_query -/

/-- Substring containment (the Python in operator on strings). -/
def containsSeq (needle hay : List Char) : Bool :=
  (List.range (hay.length + 1)).any fun i => needle.isPrefixOf (hay.drop i)

/-- The denylist of mutating and administrative keywords. -/
def dangerousKeywords : List (List Char) :=
  ["drop", "delete", "truncate", "alter", "create", "insert", "update",
   "grant", "revoke", "backup", "restore", "shutdown", "kill"].map String.data

/-- The regex signal of a semicolon followed only by whitespace up to the
end of the string (the pattern semicolon backslash-s star dollar). -/
def semiEndMatch (l : List Char) : Bool :=
  match l.reverse.dropWhile pyIsSpace with
  | ';' :: _ => true
  | _ => false

/-- Closing part of the multi-line comment pattern: a star-slash reached
before any newline (the dot of the pattern does not cross newlines). -/
def mlcClose : List Char → Bool
  | '*' :: '/' :: _ => true
  | '\n' :: _ => false
  | _ :: rest => mlcClose rest
  | [] => false

/-- The multi-line comment signal: a slash-star with a matching star-slash
on the same line somewhere in the input. -/
def mlComment (l : List Char) : Bool :=
  (List.range l.length).any fun i =>
    chAt l i '/' && chAt l (i + 1) '*' && mlcClose (l.drop (i + 2))

/-- The union-select signal: the word union, at least one whitespace
character, then the word select. -/
def unionSelectMatch (l : List Char) : Bool :=
  (List.range l.length).any fun i =>
    "union".data.isPrefixOf (l.drop i) &&
      (let rest := l.drop (i + 5)
       let wsn := (rest.takeWhile pyIsSpace).length
       decide (wsn ≥ 1) && "select".data.isPrefixOf (rest.drop wsn))

/-- The command-execution signal: exec, optional whitespace, then an
opening parenthesis. -/
def execParenMatch (l : List Char) : Bool :=
  (List.range l.length).any fun i =>
    "exec".data.isPrefixOf (l.drop i) &&
      (let rest := l.drop (i + 4)
       chAt rest ((rest.takeWhile pyIsSpace).length) '(')

/-- KonfluxDevLakeSecurityManager.validate_sql_query: lower-case and strip
the query; every statement beginning with select is allowed outright; a
non-select statement is checked against the keyword denylist, the
dangerous structural patterns, balanced parentheses and the ten thousand
character cap on the original query text. -/
def validate_sql_query (q : String) : Bool × String :=
  let query_lower := lowerStrip q
  if "select".data.isPrefixOf query_lower then
    (true, "SELECT query allowed")
  else
    match dangerousKeywords.find? (fun kw => containsSeq kw query_lower) with
    | some kw => (false, "Dangerous SQL keyword detected: " ++ ⟨kw⟩)
    | none =>
      if semiEndMatch query_lower || containsSeq "--".data query_lower ||
          mlComment query_lower || unionSelectMatch query_lower ||
          execParenMatch query_lower || containsSeq "xp_cmdshell".data query_lower then
        (false, "Dangerous SQL pattern detected")
      else if query_lower.count '(' ≠ query_lower.count ')' then
        (false, "Unbalanced parentheses in SQL query")
      else if q.length > 10000 then
        (false, "SQL query too long")
      else
        (true, "Query validation passed")

/-- SQLInjectionDetector.detect_sql_injection.  The injection-pattern scan
of the non-select branch is abstracted as a parameter (it is dead code for
every select statement, which is what the claims are about): the falsy
early return for the empty string and the unconditional allow for select
statements are embedded exactly; any other statement is classified by the
matches the scan collects over the normalized text. -/
def detect_sql_injection (scan : List Char → List String) (q : String) :
    Bool × List String :=
  if q = "" then (false, [])
  else
    let query_lower := lowerStrip q
    if "select".data.isPrefixOf query_lower then (false, [])
    else
      match scan query_lower with
      | [] => (false, [])
      | ps => (true, ps)

/-! ## KonfluxDevLakeConnection (src/utils/db.py)

The pymysql handle is abstracted: a driver oracle maps the index of each
underlying connect invocation to its outcome, and a health oracle models
the SELECT VERSION probe on a fresh handle.  The attempts field counts the
underlying driver connect invocations performed so far. -/

/-- An established driver connection; the flag records that close was
called on the underlying socket. -/
structure ConnHandle where
  closedFlag : Bool := false
  deriving DecidableEq, Repr

/-- The connection configuration consumed by the manager. -/
structure DBConfig where
  host : String
  port : Nat
  user : String
  database : Option String
  deriving DecidableEq, Repr

/-- The dictionary returned by get_connection_info. -/
structure ConnectionInfo where
  host : String
  port : Nat
  user : String
  database : Option String
  connected : Bool
  deriving DecidableEq, Repr

/-- The dictionary returned by connect. -/
structure ConnectResult where
  success : Bool
  message : Option String := none
  version : Option String := none
  error : Option String := none
  deriving DecidableEq, Repr

/-- The manager state: the stored connection reference and the number of
underlying driver connect invocations performed (instrumentation). -/
structure DBState where
  connection : Option ConnHandle := none
  attempts : Nat := 0
  deriving DecidableEq, Repr

/-- KonfluxDevLakeConnection.connect: one driver connect invocation; on
success the handle is stored and probed once with SELECT VERSION; any
raised error is caught and returned as a failure dictionary carrying the
error text.  There is no retry loop and no check for an existing
connection in the source. -/
def connect (driver : Nat → Except String ConnHandle)
    (health : ConnHandle → Except String String) (st : DBState) :
    ConnectResult × DBState :=
  match driver st.attempts with
  | .error e =>
    ({ success := false, error := some e }, { st with attempts := st.attempts + 1 })
  | .ok c =>
    let st2 : DBState := { connection := some c, attempts := st.attempts + 1 }
    match health c with
    | .error e => ({ success := false, error := some e }, st2)
    | .ok ver =>
      ({ success := true, message := some "Database connected successfully",
         version := some ver }, st2)

/-- KonfluxDevLakeConnection.close: when a connection is stored, close the
underlying socket.  The source never clears the stored reference. -/
def close (st : DBState) : DBState :=
  match st.connection with
  | some c => { st with connection := some { c with closedFlag := true } }
  | none => st

/-- KonfluxDevLakeConnection.get_connection_info: configuration echo plus
whether the stored connection reference is non-empty. -/
def get_connection_info (cfg : DBConfig) (st : DBState) : ConnectionInfo :=
  { host := cfg.host, port := cfg.port, user := cfg.user,
    database := cfg.database, connected := st.connection.isSome }

/-- The dictionary returned by execute_query. -/
structure QueryResult where
  success : Bool
  query : String
  row_count : Option Nat := none
  data : Option PyList := none
  error : Option String := none
  deriving Repr

/-- The success path of KonfluxDevLakeConnection.execute_query, given the
rows the cursor fetchall returned: the in-memory result is truncated to
the first limit rows (Python slice with a nonnegative bound) and
serialized, while row_count is the length of the untruncated fetch. -/
def execute_query (query : String) (results : PyList) (limit : Nat) : QueryResult :=
  { success := true, query := query,
    row_count := some (plLength results),
    data := some (serializeList (plTake limit results)) }

/-! ## KonfluxDevLakeSecurityManager.check_rate_limit

Timestamps are rationals measured in seconds; the state is the
insertion-ordered dictionary from key strings to timestamp lists. -/

/-- The rate-limit dictionary. -/
abbrev RLState := List (String × List ℚ)

/-- Dictionary lookup. -/
def assocGet : RLState → String → Option (List ℚ)
  | [], _ => none
  | (k, v) :: rest, key => if k = key then some v else assocGet rest key

/-- Dictionary update: replace in place, or append a new key at the end,
as Python dictionary assignment does. -/
def assocSet : RLState → String → List ℚ → RLState
  | [], key, v => [(key, v)]
  | (k, w) :: rest, key, v =>
    if k = key then (k, v) :: rest else (k, w) :: assocSet rest key v

/-- KonfluxDevLakeSecurityManager.check_rate_limit: prune entries older
than sixty seconds, store the pruned window back, deny when it already
holds one hundred entries, otherwise admit and append the current time. -/
def check_rate_limit (st : RLState) (now : ℚ) (user op : String) :
    (Bool × String) × RLState :=
  let key := user ++ ":" ++ op
  let entries := (assocGet st key).getD []
  let pruned := entries.filter fun t => decide (now - t < 60)
  let st2 := assocSet st key pruned
  if 100 ≤ pruned.length then
    ((false, "Rate limit exceeded"), st2)
  else
    ((true, "Rate limit check passed"), assocSet st2 key (pruned ++ [now]))

/-- Run a sequence of rate-limit checks for one caller and operation,
collecting the admit / deny verdicts. -/
def runRateLimit (user op : String) : RLState → List ℚ → List Bool × RLState
  | st, [] => ([], st)
  | st, t :: ts =>
    let r := check_rate_limit st t user op
    let rest := runRateLimit user op r.2 ts
    (r.1.1 :: rest.1, rest.2)

/-- The windows invariant: every stored timestamp list holds at most one
hundred entries. -/
def rlInv (st : RLState) : Bool :=
  st.all fun p => decide (p.2.length ≤ 100)

/-! ## Concrete fixtures used by counterexamples and witnesses -/

/-- A driver oracle that always fails with a transient-style error. -/
def failDriver : Nat → Except String ConnHandle :=
  fun _ => .error "Connection refused"

/-- A driver oracle that always succeeds. -/
def okDriver : Nat → Except String ConnHandle :=
  fun _ => .ok {}

/-- A health oracle that always reports a server version. -/
def okHealth : ConnHandle → Except String String :=
  fun _ => .ok "8.0.32"

/-- A concrete connection configuration. -/
def cfg0 : DBConfig :=
  { host := "localhost", port := 3306, user := "devlake", database := some "lake" }

/-- Three fetched rows. -/
def rows3 : PyList :=
  .cons (.vDict (.cons "id" (.vInt 1) .nil))
    (.cons (.vDict (.cons "id" (.vInt 2) .nil))
      (.cons (.vDict (.cons "id" (.vInt 3) .nil)) .nil))

/-- A value whose masked string leaves are free of further matches. -/
def sampleRecord : PyVal :=
  .vDict (.cons "contact" (.vStr "phone 555-123-4567, ssn 123-45-6789")
    (.cons "hosts" (.vList (.cons (.vStr "10.0.0.1") (.cons (.vInt 5) .nil)))
      .nil))

/-- One hundred identical timestamps, all inside one sliding window. -/
def ts100 : List ℚ :=
  List.replicate 100 0

end KonfluxDevLake

namespace KonfluxDevLake

/-! ## Helper lemmas -/

/-- When no pattern match fires anywhere, one re.sub pass is the identity,
for every fuel value. -/
theorem pySubF_id_of_no_match (m : Option Char → List Char → Option Nat)
    (r : List Char → List Char) :
    ∀ (l : List Char) (fuel : Nat) (prev : Option Char),
      pyHasMatch m prev l = false → pySubF m r fuel prev l = l := by
  intro l
  induction l with
  | nil => intro fuel prev _; cases fuel <;> rfl
  | cons c rest ih =>
    intro fuel prev h
    cases fuel with
    | zero => rfl
    | succ fuel =>
      rw [pyHasMatch] at h
      have h1 : m prev (c :: rest) = none := by
        cases hm : m prev (c :: rest) with
        | none => rfl
        | some n => rw [hm] at h; simp at h
      have h2 : pyHasMatch m (some c) rest = false := by
        rw [h1] at h; simpa using h
      rw [pySubF, h1, ih fuel (some c) h2]

/-- A string with no sensitive-pattern match is a fixed point of
mask_sensitive_data. -/
theorem mask_sensitive_data_id (s : String) (h : noSensitiveMatch s = true) :
    mask_sensitive_data s = s := by
  unfold noSensitiveMatch at h
  simp only [Bool.not_eq_true', Bool.or_eq_false_iff] at h
  obtain ⟨⟨⟨⟨he, hp⟩, hs⟩, hc⟩, hi⟩ := h
  have hl : maskSensitiveDataL s.data = s.data := by
    unfold maskSensitiveDataL
    split
    · rfl
    · unfold pySub
      rw [pySubF_id_of_no_match _ _ _ _ _ he, pySubF_id_of_no_match _ _ _ _ _ hp,
        pySubF_id_of_no_match _ _ _ _ _ hs, pySubF_id_of_no_match _ _ _ _ _ hc,
        pySubF_id_of_no_match _ _ _ _ _ hi]
  show (⟨maskSensitiveDataL s.data⟩ : String) = s
  rw [hl]

/-- serialize_datetime_objects preserves list length. -/
theorem plLength_serializeList : ∀ xs : PyList,
    plLength (serializeList xs) = plLength xs
  | .nil => rfl
  | .cons _ tl => by simp [serializeList, plLength, plLength_serializeList tl]

/-- Truncation takes the minimum of the bound and the length. -/
theorem plLength_plTake : ∀ (n : Nat) (xs : PyList),
    plLength (plTake n xs) = min n (plLength xs)
  | 0, xs => by simp [plTake, plLength]
  | n + 1, .nil => by simp [plTake, plLength]
  | n + 1, .cons hd tl => by
    simp [plTake, plLength, plLength_plTake n tl]
    omega

/-! ## Claim C1 -/

/-- Claim C1: for every query whose lower-cased, stripped text begins with
select, validate_sql_query allows it with the select reason and
detect_sql_injection reports not-detected with an empty match list,
whatever the injection scan would find in the rest of the text. -/
theorem c1_select_always_allowed (q : String) (scan : List Char → List String)
    (h : "select".data.isPrefixOf (lowerStrip q) = true) :
    validate_sql_query q = (true, "SELECT query allowed") ∧
      detect_sql_injection scan q = (false, []) := by
  constructor
  · unfold validate_sql_query
    simp [h]
  · have hq : ¬ q = "" := by
      intro hq
      subst hq
      revert h
      decide
    unfold detect_sql_injection
    simp [hq, h]

/-- Witness for claim C1 at a select query that contains an injection
payload after the select prefix. -/
theorem c1_witness :
    "select".data.isPrefixOf (lowerStrip "  SELECT * FROM users; DROP TABLE users --") = true ∧
    validate_sql_query "  SELECT * FROM users; DROP TABLE users --" =
      (true, "SELECT query allowed") ∧
    detect_sql_injection (fun _ => ["signal"]) "  SELECT * FROM users; DROP TABLE users --" =
      (false, []) := by
  have h : "select".data.isPrefixOf (lowerStrip "  SELECT * FROM users; DROP TABLE users --") = true := by
    decide
  exact ⟨h, c1_select_always_allowed _ _ h⟩

/-! ## Claim C2 -/

/-- Claim C2 counterexample: three fetched rows with limit two produce two
data rows, but row_count is three, the untruncated fetch size, not two. -/
theorem c2_row_count_cex :
    (execute_query "SELECT * FROM t" rows3 2).data.map plLength = some 2 ∧
    (execute_query "SELECT * FROM t" rows3 2).row_count = some 3 ∧
    (execute_query "SELECT * FROM t" rows3 2).row_count ≠ some 2 := by
  decide

/-- Claim C2 (amended): with limit below the fetched row count, the data
field holds exactly limit serialized rows, and row_count reports the full
untruncated fetch size rather than the limited count. -/
theorem c2_execute_query_truncation (q : String) (rows : PyList) (limit : Nat)
    (h : limit < plLength rows) :
    (execute_query q rows limit).success = true ∧
    (execute_query q rows limit).data.map plLength = some limit ∧
    (execute_query q rows limit).row_count = some (plLength rows) := by
  refine ⟨rfl, ?_, rfl⟩
  show some (plLength (serializeList (plTake limit rows))) = some limit
  rw [plLength_serializeList, plLength_plTake]
  simp [Nat.min_eq_left (Nat.le_of_lt h)]

/-- Witness for the amended claim C2 at three rows and limit two. -/
theorem c2_witness :
    2 < plLength rows3 ∧
    ((execute_query "SELECT 1" rows3 2).success = true ∧
     (execute_query "SELECT 1" rows3 2).data.map plLength = some 2 ∧
     (execute_query "SELECT 1" rows3 2).row_count = some (plLength rows3)) :=
  ⟨by decide, c2_execute_query_truncation "SELECT 1" rows3 2 (by decide)⟩

/-! ## Claim C3 -/

/-- Claim C3 (divergence witness): with a driver that always fails with a
transient-style error, connect performs exactly one underlying connection
attempt and returns a failure carrying the original error text; there is
no retry loop, so the three backoff attempts the claim describes (and the
unit tests assert) never happen. -/
theorem c3_connect_single_attempt :
    (connect failDriver okHealth {}).1.success = false ∧
    (connect failDriver okHealth {}).1.error = some "Connection refused" ∧
    (connect failDriver okHealth {}).2.attempts = 1 :=
  ⟨rfl, rfl, rfl⟩

/-! ## Claim C4 -/

/-- Claim C4 (divergence witness): calling connect twice with an
always-succeeding driver returns success both times, but the second call
performs one more underlying establishment attempt (the counter reaches
two), not the zero additional attempts the claim describes. -/
theorem c4_connect_reattempts :
    (connect okDriver okHealth {}).1.success = true ∧
    (connect okDriver okHealth {}).2.attempts = 1 ∧
    (connect okDriver okHealth (connect okDriver okHealth {}).2).1.success = true ∧
    (connect okDriver okHealth (connect okDriver okHealth {}).2).2.attempts = 2 :=
  ⟨rfl, rfl, rfl, rfl⟩

/-! ## Claim C7 -/

/-- Claim C7 (divergence witness): after a successful connect followed by
close, the stored connection reference is still non-empty and
get_connection_info still reports connected, because close never clears
the reference. -/
theorem c7_close_keeps_reference :
    (close (connect okDriver okHealth {}).2).connection ≠ none ∧
    (get_connection_info cfg0 (close (connect okDriver okHealth {}).2)).connected = true :=
  ⟨by decide, rfl⟩

/-! ## Structural lemmas for masking and serialization -/

mutual

/-- mask_database_result satisfies the specification-side masking
relation on every value. -/
theorem specMasksTo_mask : ∀ v : PyVal, specMasksTo v (mask_database_result v) = true
  | .vStr s => by simp [specMasksTo, mask_database_result]
  | .vInt n => by simp [specMasksTo, mask_database_result]
  | .vBool b => by simp [specMasksTo, mask_database_result]
  | .vNone => by simp [specMasksTo, mask_database_result]
  | .vDateTime d => by simp [specMasksTo, mask_database_result]
  | .vDate d => by simp [specMasksTo, mask_database_result]
  | .vDec d => by simp [specMasksTo, mask_database_result]
  | .vList xs => by
    simpa [specMasksTo, mask_database_result] using specMasksToList_mask xs
  | .vDict ps => by
    simpa [specMasksTo, mask_database_result] using specMasksToDict_mask ps

/-- List case of the masking relation. -/
theorem specMasksToList_mask : ∀ xs : PyList, specMasksToList xs (maskList xs) = true
  | .nil => rfl
  | .cons hd tl => by
    simp [specMasksToList, maskList, specMasksTo_mask hd, specMasksToList_mask tl]

/-- Dictionary case of the masking relation. -/
theorem specMasksToDict_mask : ∀ ps : PyDict, specMasksToDict ps (maskDict ps) = true
  | .nil => rfl
  | .cons k v tl => by
    simp [specMasksToDict, maskDict, specMasksTo_mask v, specMasksToDict_mask tl]

end

mutual

/-- serialize_datetime_objects satisfies the specification-side
serialization relation on every value. -/
theorem specSerializesTo_serialize :
    ∀ v : PyVal, specSerializesTo v (serialize_datetime_objects v) = true
  | .vStr s => by simp [specSerializesTo, serialize_datetime_objects]
  | .vInt n => by simp [specSerializesTo, serialize_datetime_objects]
  | .vBool b => by simp [specSerializesTo, serialize_datetime_objects]
  | .vNone => by simp [specSerializesTo, serialize_datetime_objects]
  | .vDateTime d => by simp [specSerializesTo, serialize_datetime_objects]
  | .vDate d => by simp [specSerializesTo, serialize_datetime_objects]
  | .vDec d => by simp [specSerializesTo, serialize_datetime_objects]
  | .vList xs => by
    simpa [specSerializesTo, serialize_datetime_objects] using
      specSerializesToList_serialize xs
  | .vDict ps => by
    simpa [specSerializesTo, serialize_datetime_objects] using
      specSerializesToDict_serialize ps

/-- List case of the serialization relation. -/
theorem specSerializesToList_serialize :
    ∀ xs : PyList, specSerializesToList xs (serializeList xs) = true
  | .nil => rfl
  | .cons hd tl => by
    simp [specSerializesToList, serializeList, specSerializesTo_serialize hd,
      specSerializesToList_serialize tl]

/-- Dictionary case of the serialization relation. -/
theorem specSerializesToDict_serialize :
    ∀ ps : PyDict, specSerializesToDict ps (serializeDict ps) = true
  | .nil => rfl
  | .cons k v tl => by
    simp [specSerializesToDict, serializeDict, specSerializesTo_serialize v,
      specSerializesToDict_serialize tl]

end

mutual

/-- No datetime, date or decimal node survives serialization. -/
theorem noRawTemporal_serialize :
    ∀ v : PyVal, noRawTemporal (serialize_datetime_objects v) = true
  | .vStr s => rfl
  | .vInt n => rfl
  | .vBool b => rfl
  | .vNone => rfl
  | .vDateTime d => rfl
  | .vDate d => rfl
  | .vDec d => rfl
  | .vList xs => by
    simpa [serialize_datetime_objects, noRawTemporal] using
      noRawTemporalList_serialize xs
  | .vDict ps => by
    simpa [serialize_datetime_objects, noRawTemporal] using
      noRawTemporalDict_serialize ps

/-- List case of temporal-freeness after serialization. -/
theorem noRawTemporalList_serialize :
    ∀ xs : PyList, noRawTemporalList (serializeList xs) = true
  | .nil => rfl
  | .cons hd tl => by
    simp [serializeList, noRawTemporalList, noRawTemporal_serialize hd,
      noRawTemporalList_serialize tl]

/-- Dictionary case of temporal-freeness after serialization. -/
theorem noRawTemporalDict_serialize :
    ∀ ps : PyDict, noRawTemporalDict (serializeDict ps) = true
  | .nil => rfl
  | .cons k v tl => by
    simp [serializeDict, noRawTemporalDict, noRawTemporal_serialize v,
      noRawTemporalDict_serialize tl]

end

mutual

/-- Values whose string leaves are free of sensitive-pattern matches are
fixed points of mask_database_result. -/
theorem mask_database_result_id :
    ∀ v : PyVal, leavesMatchFree v = true → mask_database_result v = v
  | .vStr s, h => by
    simp only [leavesMatchFree] at h
    simp [mask_database_result, mask_sensitive_data_id s h]
  | .vInt n, _ => rfl
  | .vBool b, _ => rfl
  | .vNone, _ => rfl
  | .vDateTime d, _ => rfl
  | .vDate d, _ => rfl
  | .vDec d, _ => rfl
  | .vList xs, h => by
    simp only [leavesMatchFree] at h
    simp [mask_database_result, maskList_id xs h]
  | .vDict ps, h => by
    simp only [leavesMatchFree] at h
    simp [mask_database_result, maskDict_id ps h]

/-- List case of the fixed-point lemma. -/
theorem maskList_id :
    ∀ xs : PyList, leavesMatchFreeList xs = true → maskList xs = xs
  | .nil, _ => rfl
  | .cons hd tl, h => by
    simp only [leavesMatchFreeList, Bool.and_eq_true] at h
    simp [maskList, mask_database_result_id hd h.1, maskList_id tl h.2]

/-- Dictionary case of the fixed-point lemma. -/
theorem maskDict_id :
    ∀ ps : PyDict, leavesMatchFreeDict ps = true → maskDict ps = ps
  | .nil, _ => rfl
  | .cons k v tl, h => by
    simp only [leavesMatchFreeDict, Bool.and_eq_true] at h
    simp [maskDict, mask_database_result_id v h.1, maskDict_id tl h.2]

end

/-! ## Claim C5 -/

/-- Claim C5 counterexample: the email replacement is not a fixed token of
its category — it retains the first three characters of the match and the
domain, so two different full-match emails mask to two different strings,
and no single token can be the image of every full email match. -/
theorem c5_fixed_token_cex :
    mask_sensitive_data "abc@x.com" = "abc***@x.com" ∧
    ¬ ∃ tok : String, ∀ s : String,
        isFullEmailMatch s.data = true → mask_sensitive_data s = tok := by
  refine ⟨by decide, ?_⟩
  rintro ⟨tok, h⟩
  have h1 := h "abc@x.com" (by decide)
  have h2 := h "abd@x.com" (by decide)
  have h3 : mask_sensitive_data "abc@x.com" = mask_sensitive_data "abd@x.com" :=
    h1.trans h2.symm
  exact absurd h3 (by decide)

/-- Claim C5 (amended): MaskResult preserves the structure of mappings and
sequences (same keys in order, same lengths), leaves every non-string
leaf unchanged, and rewrites every string leaf with mask_sensitive_data;
the phone, SSN, credit-card and IPv4 substitutions use fixed category
tokens, while the email substitution retains the first three characters
of the match together with its domain part. -/
theorem c5_masking_structure :
    (∀ v : PyVal, specMasksTo v (mask_database_result v) = true) ∧
    mask_sensitive_data "abc@x.com" = "abc***@x.com" ∧
    mask_sensitive_data "555-123-4567" = "***-***-****" ∧
    mask_sensitive_data "123-45-6789" = "***-**-****" ∧
    mask_sensitive_data "1234-5678-9012-3456" = "****-****-****-****" ∧
    mask_sensitive_data "10.0.0.1" = "***.***.***.***" :=
  ⟨specMasksTo_mask, by decide, by decide, by decide, by decide, by decide⟩

/-! ## Claim C6 -/

/-- Claim C6 counterexample: masking is not idempotent.  On the string
value a-at-b.cd-at-e.fg the first pass consumes the leading email match
and its replacement re-exposes a second email match that only the second
pass rewrites, so masking twice differs from masking once. -/
theorem c6_idempotence_cex :
    mask_database_result (mask_database_result (.vStr "a@b.cd@e.fg")) ≠
      mask_database_result (.vStr "a@b.cd@e.fg") := by
  decide

/-- Claim C6 (amended): masking twice equals masking once on every value
whose once-masked string leaves contain no further sensitive-pattern
match; the fixed digit-category redaction tokens are never re-matched,
while a masked email can re-expose a fresh email match, as the
counterexample shows. -/
theorem c6_mask_idempotent_on_matchfree (v : PyVal)
    (h : leavesMatchFree (mask_database_result v) = true) :
    mask_database_result (mask_database_result v) = mask_database_result v :=
  mask_database_result_id _ h

/-- Witness for the amended claim C6 on a record holding a phone number,
an SSN and an IPv4 address. -/
theorem c6_witness :
    leavesMatchFree (mask_database_result sampleRecord) = true ∧
    mask_database_result (mask_database_result sampleRecord) =
      mask_database_result sampleRecord :=
  ⟨by decide, c6_mask_idempotent_on_matchfree sampleRecord (by decide)⟩

/-! ## Claim C8 -/

/-- Claim C8: in a successful execute_query result every datetime, date
and decimal value, at any nesting depth, is converted to exactly its
canonical string (ISO format, exact decimal text), all other values pass
through unchanged, and no unconverted temporal or decimal node remains in
the data handed to the caller; the decimal 99.990 keeps its trailing zero
and a datetime renders in ISO form. -/
theorem c8_canonical_serialization :
    (∀ v : PyVal, specSerializesTo v (serialize_datetime_objects v) = true) ∧
    (∀ v : PyVal, noRawTemporal (serialize_datetime_objects v) = true) ∧
    (∀ (q : String) (rows : PyList) (limit : Nat),
      (execute_query q rows limit).data.map noRawTemporalList = some true) ∧
    decStr { sign := false, digits := [9, 9, 9, 9, 0], exp := -3 } = "99.990" ∧
    isoDateTime
        { year := 2024, month := 1, day := 15, hour := 10, minute := 30,
          second := 0, micro := 0 } = "2024-01-15T10:30:00" := by
  refine ⟨specSerializesTo_serialize, noRawTemporal_serialize, ?_, by decide, by decide⟩
  intro q rows limit
  show some (noRawTemporalList (serializeList (plTake limit rows))) = some true
  rw [noRawTemporalList_serialize]

/-! ## Rate limiter lemmas -/

/-- One admitted check on a singleton state whose window is inside the
sliding minute and below the budget. -/
theorem check_rate_limit_admit (user op : String) (acc : List ℚ) (now : ℚ)
    (hwin : ∀ a ∈ acc, now - a < 60) (hlen : acc.length < 100) :
    check_rate_limit [(user ++ ":" ++ op, acc)] now user op =
      ((true, "Rate limit check passed"), [(user ++ ":" ++ op, acc ++ [now])]) := by
  unfold check_rate_limit
  have hfilter : acc.filter (fun t => decide (now - t < 60)) = acc :=
    List.filter_eq_self.mpr fun a ha => by simpa using hwin a ha
  simp [assocGet, assocSet, hfilter, Nat.not_le.mpr hlen]

/-- Running a batch of checks that all fit inside the window and budget
admits every one of them and appends every timestamp, in order. -/
theorem runRateLimit_all_admit (user op : String) :
    ∀ (ts acc : List ℚ), acc.length + ts.length ≤ 100 →
      (∀ t ∈ ts, ∀ a ∈ acc, t - a < 60) →
      (∀ t ∈ ts, ∀ u ∈ ts, t - u < 60) →
      runRateLimit user op [(user ++ ":" ++ op, acc)] ts =
        (List.replicate ts.length true, [(user ++ ":" ++ op, acc ++ ts)])
  | [], acc, _, _, _ => by simp [runRateLimit]
  | t :: ts, acc, hlen, hacc, hwin => by
    have hstep := check_rate_limit_admit user op acc t
      (fun a ha => hacc t (by simp) a ha) (by simp at hlen; omega)
    have ih := runRateLimit_all_admit user op ts (acc ++ [t])
      (by simp at hlen ⊢; omega)
      (by
        intro t2 ht2 a ha
        rcases List.mem_append.mp ha with h1 | h1
        · exact hacc t2 (by simp [ht2]) a h1
        · have ha0 : a = t := by simpa using h1
          rw [ha0]
          exact hwin t2 (by simp [ht2]) t (by simp))
      (fun t2 ht2 u hu => hwin t2 (by simp [ht2]) u (by simp [hu]))
    simp only [runRateLimit, hstep, ih]
    simp [List.replicate_succ]

/-- Splitting a run of checks into two batches. -/
theorem runRateLimit_append (user op : String) :
    ∀ (bs as : List ℚ) (st : RLState),
      runRateLimit user op st (as ++ bs) =
        ((runRateLimit user op st as).1 ++
          (runRateLimit user op (runRateLimit user op st as).2 bs).1,
         (runRateLimit user op (runRateLimit user op st as).2 bs).2) := by
  intro bs as
  induction as with
  | nil => intro st; simp [runRateLimit]
  | cons a as ih => intro st; simp [runRateLimit, ih]

/-- The very first check, starting from the empty dictionary, is admitted
and creates the key with a single timestamp. -/
theorem check_rate_limit_first (user op : String) (now : ℚ) :
    check_rate_limit [] now user op =
      ((true, "Rate limit check passed"), [(user ++ ":" ++ op, [now])]) := by
  unfold check_rate_limit
  simp [assocGet, assocSet]

/-! ## Claim C9 -/

/-- Claim C9: starting fresh, one hundred checks whose timestamps all lie
inside one sliding minute are all admitted, the one-hundred-first inside
the same window is denied (and consumes no budget: the stored window
remains the first hundred timestamps), and a later check whose distance
to every stored timestamp is at least sixty seconds is admitted again. -/
theorem c9_rate_limit_window (user op : String) (ts : List ℚ)
    (hlen : ts.length = 100) (tlast : ℚ)
    (hwin : ∀ a ∈ ts ++ [tlast], ∀ b ∈ ts ++ [tlast], a - b < 60) :
    runRateLimit user op [] (ts ++ [tlast]) =
      (List.replicate 100 true ++ [false], [(user ++ ":" ++ op, ts)]) ∧
    ∀ tnew : ℚ, (∀ a ∈ ts, 60 ≤ tnew - a) →
      (check_rate_limit [(user ++ ":" ++ op, ts)] tnew user op).1.1 = true := by
  constructor
  · cases ts with
    | nil => simp at hlen
    | cons t0 rest =>
      have hrest : rest.length = 99 := by simpa using hlen
      have hts : ∀ a ∈ t0 :: rest, ∀ b ∈ t0 :: rest, a - b < 60 := by
        intro a ha b hb
        exact hwin a (List.mem_append_left _ ha) b (List.mem_append_left _ hb)
      have hbatch := runRateLimit_all_admit user op rest [t0]
        (by simp [hrest])
        (by
          intro t2 ht2 a ha
          have ha0 : a = t0 := by simpa using ha
          subst ha0
          exact hts t2 (by simp [ht2]) a (by simp))
        (fun t2 ht2 u hu => hts t2 (by simp [ht2]) u (by simp [hu]))
      have hdeny :
          check_rate_limit [(user ++ ":" ++ op, t0 :: rest)] tlast user op =
            ((false, "Rate limit exceeded"), [(user ++ ":" ++ op, t0 :: rest)]) := by
        unfold check_rate_limit
        have hfilter : (t0 :: rest).filter (fun t => decide (tlast - t < 60)) =
            t0 :: rest :=
          List.filter_eq_self.mpr fun a ha => by
            simpa using hwin tlast (List.mem_append_right _ (by simp)) a
              (List.mem_append_left _ ha)
        have h100 : 100 ≤ ((t0 :: rest).filter (fun t => decide (tlast - t < 60))).length := by
          rw [hfilter]
          simp only [List.length_cons, hrest]
          omega
        simp [assocGet, assocSet, hfilter, h100, hrest]
      have hfirst :
          runRateLimit user op [] (t0 :: (rest ++ [tlast])) =
            (true :: (runRateLimit user op [(user ++ ":" ++ op, [t0])] (rest ++ [tlast])).1,
             (runRateLimit user op [(user ++ ":" ++ op, [t0])] (rest ++ [tlast])).2) := by
        rw [runRateLimit, check_rate_limit_first]
      have hrepl : (List.replicate 100 true : List Bool) = true :: List.replicate 99 true := rfl
      rw [List.cons_append, hfirst,
        runRateLimit_append user op [tlast] rest [(user ++ ":" ++ op, [t0])], hbatch]
      simp only [List.singleton_append]
      rw [runRateLimit, hdeny, runRateLimit]
      rw [hrest, hrepl, List.cons_append]
  · intro tnew h60
    unfold check_rate_limit
    have hfilter : ts.filter (fun t => decide (tnew - t < 60)) = [] := by
      rw [List.filter_eq_nil_iff]
      intro a ha
      simpa using not_lt.mpr (h60 a ha)
    simp [assocGet, assocSet, hfilter]

/-- Witness for claim C9: one hundred checks at time zero are admitted,
the one-hundred-first at time zero is denied, and a check forty seconds
after the window (at time one hundred) is admitted again. -/
theorem c9_witness :
    runRateLimit "alice" "query" [] (ts100 ++ [0]) =
      (List.replicate 100 true ++ [false], [("alice" ++ ":" ++ "query", ts100)]) ∧
    (check_rate_limit [("alice" ++ ":" ++ "query", ts100)] 100 "alice" "query").1.1 =
      true := by
  have hwin : ∀ a ∈ ts100 ++ [(0 : ℚ)], ∀ b ∈ ts100 ++ [(0 : ℚ)], a - b < 60 := by
    intro a ha b hb
    have ha0 : a = 0 := by
      rcases List.mem_append.mp ha with h | h
      · simpa [ts100] using h
      · simpa using h
    have hb0 : b = 0 := by
      rcases List.mem_append.mp hb with h | h
      · simpa [ts100] using h
      · simpa using h
    rw [ha0, hb0]
    norm_num
  have h := c9_rate_limit_window "alice" "query" ts100 (by simp [ts100]) 0 hwin
  refine ⟨h.1, h.2 100 ?_⟩
  intro a ha
  have ha0 : a = 0 := by simpa [ts100] using ha
  rw [ha0]
  norm_num

/-! ## Claim C10 -/

/-- Under the windows invariant every stored list read back is short. -/
theorem rlInv_get (st : RLState) (h : rlInv st = true) (key : String) :
    ((assocGet st key).getD []).length ≤ 100 := by
  induction st with
  | nil => simp [assocGet]
  | cons p rest ih =>
    rw [rlInv, List.all_cons, Bool.and_eq_true] at h
    obtain ⟨h1, h2⟩ := h
    cases p with
    | mk k v =>
      rw [assocGet]
      split
      · simpa using of_decide_eq_true h1
      · exact ih h2

/-- Storing a short list preserves the windows invariant. -/
theorem rlInv_set (st : RLState) (key : String) (v : List ℚ)
    (h : rlInv st = true) (hv : v.length ≤ 100) :
    rlInv (assocSet st key v) = true := by
  induction st with
  | nil => simp [assocSet, rlInv, hv]
  | cons p rest ih =>
    rw [rlInv, List.all_cons, Bool.and_eq_true] at h
    obtain ⟨h1, h2⟩ := h
    cases p with
    | mk k w =>
      rw [assocSet]
      split
      · simp only [rlInv, List.all_cons, Bool.and_eq_true]
        exact ⟨by simpa using hv, h2⟩
      · simp only [rlInv, List.all_cons, Bool.and_eq_true]
        exact ⟨h1, ih h2⟩

/-- Reading back the key just stored. -/
theorem assocGet_set (st : RLState) (key : String) (v : List ℚ) :
    assocGet (assocSet st key v) key = some v := by
  induction st with
  | nil => simp [assocSet, assocGet]
  | cons p rest ih =>
    cases p with
    | mk k w =>
      rw [assocSet]
      split
      · next hk => rw [assocGet, if_pos hk]
      · next hk => rw [assocGet, if_neg hk]; exact ih

/-- Claim C10: the windows invariant — at most one hundred stored
timestamps per key — is preserved by every check_rate_limit call, and a
denied call stores back exactly the pruned window, appending nothing. -/
theorem c10_window_invariant (st : RLState) (now : ℚ) (user op : String)
    (h : rlInv st = true) :
    rlInv (check_rate_limit st now user op).2 = true ∧
    ((check_rate_limit st now user op).1.1 = false →
      assocGet (check_rate_limit st now user op).2 (user ++ ":" ++ op) =
        some (((assocGet st (user ++ ":" ++ op)).getD []).filter
          fun t => decide (now - t < 60))) := by
  simp only [check_rate_limit]
  set key := user ++ ":" ++ op with hkey
  set entries := (assocGet st key).getD [] with hent
  set pruned := entries.filter (fun t => decide (now - t < 60)) with hpr
  have hple : pruned.length ≤ entries.length := List.length_filter_le _ _
  have h100 : entries.length ≤ 100 := rlInv_get st h key
  by_cases hc : 100 ≤ pruned.length
  · rw [if_pos hc]
    exact ⟨rlInv_set st key pruned h (le_trans hple h100),
      fun _ => assocGet_set st key pruned⟩
  · rw [if_neg hc]
    refine ⟨?_, ?_⟩
    · exact rlInv_set _ key _ (rlInv_set st key pruned h (le_trans hple h100))
        (by simp only [List.length_append, List.length_cons, List.length_nil]; omega)
    · intro hfalse
      simp at hfalse

/-- Witness for claim C10 on the empty state. -/
theorem c10_witness :
    rlInv ([] : RLState) = true ∧
    rlInv (check_rate_limit [] 0 "alice" "query").2 = true :=
  ⟨rfl, (c10_window_invariant [] 0 "alice" "query" rfl).1⟩

end KonfluxDevLake




